import Mathlib

/-!
Verification of the GCD (Geometry, Calibration, Detector Status) snapshot
generation core of the gcdserver-api service, as a shallow embedding of
`src/api/gcd.rs` and the record types of `src/models.rs`.

Timestamps (`chrono::DateTime<Utc>`, a totally ordered type) are modelled as
`Int`; the epoch `1970-01-01T00:00:00Z` is `0`.  The opaque `DOMCal` payload
(floating-point vectors, content-agnostic to the resolution core) is modelled
as an abstract tag `domcal : Nat` so that distinct records are
distinguishable.  Database reads are modelled by passing the collection
contents as lists; MongoDB `find_one` with an equality filter is `List.find?`.
-/

namespace GcdServer

/-- Model of `models.rs::Calibration`: a device key `dom_id : u32`, an opaque
calibration payload, and a creation timestamp. -/
structure Calibration where
  dom_id : Nat
  domcal : Nat
  timestamp : Int
deriving DecidableEq, Repr

/-- Model of `models.rs::RunMetadata` (the fields read by `gcd.rs`):
run number, window start, optional window end. -/
structure RunMetadata where
  run_number : Nat
  start_time : Int
  end_time : Option Int
deriving DecidableEq, Repr

/-- Model of `models.rs::Geometry` (opaque to the resolution core). -/
structure Geometry where
  string : Nat
  position : Nat
  timestamp : Int
deriving DecidableEq, Repr

/-- Model of `models.rs::DetectorStatus` (the fields read by `gcd.rs`). -/
structure DetectorStatus where
  dom_id : Nat
  run_number : Nat
  is_bad : Bool
  timestamp : Int
deriving DecidableEq, Repr

/-- Model of `errors.rs::ApiError` (message payloads kept as strings). -/
inductive ApiError where
  | DatabaseError (msg : String)
  | NotFound (msg : String)
  | ValidationError (msg : String)
  | InternalError (msg : String)
  | MongoError (msg : String)
deriving DecidableEq, Repr

/-- Model of `gcd.rs::GCDCollection`, the assembled snapshot. -/
structure GCDCollection where
  run_number : Nat
  generated_at : Int
  generated_by : String
  calibrations : List Calibration
  geometry : List Geometry
  detector_status : List DetectorStatus
  collection_id : String
deriving DecidableEq, Repr

/-- The contents of the four MongoDB collections read by
`generate_gcd_collection`, passed in explicitly. -/
structure DbState where
  calibration : List Calibration
  geometry : List Geometry
  detector_status : List DetectorStatus
  run_metadata : List RunMetadata

/-- `DateTime::parse_from_rfc3339("1970-01-01T00:00:00Z")`, the epoch. -/
def epoch_zero : Int := 0

/-- The comparator of `cals.sort_by(|a, b| b.timestamp.cmp(&a.timestamp))`:
`a` may precede `b` exactly when `b.timestamp ≤ a.timestamp` (descending,
newest first). -/
def calDesc (a b : Calibration) : Prop := b.timestamp ≤ a.timestamp

instance : DecidableRel calDesc := fun a b => Int.decLe b.timestamp a.timestamp

instance : IsTotal Calibration calDesc :=
  ⟨fun a b => (le_total b.timestamp a.timestamp).imp id id⟩

instance : IsTrans Calibration calDesc :=
  ⟨fun _ _ _ h₁ h₂ => le_trans h₂ h₁⟩

/-- Rust's `sort_by` is a stable sort; a stable sort by a given key is
uniquely determined, so insertion sort with `calDesc` computes exactly the
descending-by-timestamp order with ties kept in input order. -/
def sortByTimestampDesc (cals : List Calibration) : List Calibration :=
  List.insertionSort calDesc cals

/-- The vector accumulated under key `d` in the `HashMap<u32, Vec<Calibration>>`
built by the grouping loop of `filter_calibrations_for_run`: all input records
with `dom_id = d`, in input order. -/
def groupOf (cals : List Calibration) (d : Nat) : List Calibration :=
  cals.filter (fun c => c.dom_id == d)

/-- The set of keys of that `HashMap`, enumerated in first-occurrence order
(the `HashMap` iteration order is unspecified; any fixed enumeration of the
key set models it, and all claims about the output are order-insensitive). -/
def domKeys : List Calibration → List Nat
  | [] => []
  | c :: rest => c.dom_id :: (domKeys rest).filter (fun k => k != c.dom_id)

/-- The per-group selection of `filter_calibrations_for_run`:
`cals.iter().find(|cal| cal.timestamp <= run_start).cloned()
   .or_else(|| cals.last().cloned()).unwrap_or_else(|| cals[0].clone())`
applied to the descending-sorted group.  The final `cals[0]` on an empty
vector would panic in Rust; here that branch is `List.head?`, which is `none`
exactly on the empty group, so `none` marks the (unreachable) panic. -/
def select_best (run_start : Int) (cals : List Calibration) : Option Calibration :=
  match (sortByTimestampDesc cals).find? (fun c => c.timestamp ≤ run_start) with
  | some c => some c
  | none =>
    match (sortByTimestampDesc cals).getLast? with
    | some c => some c
    | none => (sortByTimestampDesc cals).head?

/-- Model of `gcd.rs::filter_calibrations_for_run`: group by `dom_id`, and for
each device emit the selected record.  `run_end` is received and ignored,
exactly as the `_run_end` parameter is in the source. -/
def filter_calibrations_for_run (calibrations : List Calibration)
    (run_start : Int) (_run_end : Option Int) : List Calibration :=
  (domKeys calibrations).filterMap
    (fun d => select_best run_start (groupOf calibrations d))

/-- The run-window resolution step of `generate_gcd_collection`
(lines 62–80 of `gcd.rs`): `find_one` on `run_metadata` by run number; on a
hit return the stored `(start_time, end_time)` verbatim, otherwise the
synthetic window `(epoch_zero, some now)`.  The absent case is absorbed into
the fallback — the function is total and returns no error. -/
def resolve_window (run_metadata_col : List RunMetadata) (run_num : Nat)
    (now : Int) : Int × Option Int :=
  match run_metadata_col.find? (fun m => m.run_number == run_num) with
  | some metadata => (metadata.start_time, metadata.end_time)
  | none => (epoch_zero, some now)

/-- Model of `gcd.rs::generate_gcd_collection` as a pure function of the
database contents and the ambient effects (`now`, the fresh UUID, the
authenticated caller's email). -/
def generate_gcd_collection (db : DbState) (run_num : Nat) (now : Int)
    (uuid : String) (email : String) : GCDCollection :=
  let window := resolve_window db.run_metadata run_num now
  { run_number := run_num
    generated_at := now
    generated_by := email
    calibrations := filter_calibrations_for_run db.calibration window.1 window.2
    geometry := db.geometry
    detector_status := db.detector_status.filter (fun s => s.run_number == run_num)
    collection_id := uuid }

/-- The message built by `gcd.rs::get_gcd_collection`. -/
def gcdNotFoundMsg : String :=
  "GCD collection storage not yet implemented. Use /gcd/generate to create collections."

/-- Model of `gcd.rs::get_gcd_collection`: unconditionally
`Err(ApiError::NotFound(..))`. -/
def get_gcd_collection (_collection_id : String) : Except ApiError GCDCollection :=
  Except.error (ApiError.NotFound gcdNotFoundMsg)

/-! ### Helper lemmas about the grouping -/

lemma mem_groupOf {cals : List Calibration} {d : Nat} {c : Calibration} :
    c ∈ groupOf cals d ↔ c ∈ cals ∧ c.dom_id = d := by
  simp [groupOf]

lemma groupOf_ne_nil {cals : List Calibration} {d : Nat}
    (h : ∃ c ∈ cals, c.dom_id = d) : groupOf cals d ≠ [] := by
  obtain ⟨c, hc, hd⟩ := h
  intro hnil
  have : c ∈ groupOf cals d := mem_groupOf.mpr ⟨hc, hd⟩
  simp [hnil] at this

lemma mem_domKeys {cals : List Calibration} {d : Nat} :
    d ∈ domKeys cals ↔ ∃ c ∈ cals, c.dom_id = d := by
  induction cals with
  | nil => simp [domKeys]
  | cons c rest ih =>
    by_cases hd : d = c.dom_id
    · subst hd
      simp [domKeys]
    · simp only [domKeys, List.mem_cons, List.mem_filter, ih, List.mem_cons]
      constructor
      · rintro (h | ⟨⟨x, hx, hxd⟩, _⟩)
        · exact absurd h hd
        · exact ⟨x, Or.inr hx, hxd⟩
      · rintro ⟨x, hx | hx, hxd⟩
        · exact absurd (hxd ▸ congrArg Calibration.dom_id (hx ▸ rfl)) hd
        · refine Or.inr ⟨⟨x, hx, hxd⟩, ?_⟩
          simpa using fun hEq => hd hEq

lemma domKeys_nodup (cals : List Calibration) : (domKeys cals).Nodup := by
  induction cals with
  | nil => simp [domKeys]
  | cons c rest ih =>
    refine List.Nodup.cons ?_ (ih.filter _)
    intro hmem
    rcases List.mem_filter.mp hmem with ⟨_, hne⟩
    simp at hne

/-! ### Helper lemmas about the stable descending sort -/

lemma sortDesc_perm (l : List Calibration) :
    List.Perm (sortByTimestampDesc l) l :=
  List.perm_insertionSort calDesc l

lemma sortDesc_sorted (l : List Calibration) :
    List.Sorted calDesc (sortByTimestampDesc l) :=
  List.sorted_insertionSort calDesc l

lemma orderedInsert_filter_ts (c : Calibration) (L : List Calibration) (t : Int) :
    (List.orderedInsert calDesc c L).filter (fun x => x.timestamp == t) =
      (c :: L).filter (fun x => x.timestamp == t) := by
  induction L with
  | nil => rfl
  | cons d rest ih =>
    by_cases h : calDesc c d
    · rw [List.orderedInsert_of_le _ _ h]
    · have hlt : c.timestamp < d.timestamp := by
        simpa [calDesc, not_le] using h
      simp only [List.orderedInsert, if_neg h]
      by_cases hc : c.timestamp = t <;> by_cases hd : d.timestamp = t
      · omega
      · simp [List.filter_cons, hc, hd, ih]
      · simp [List.filter_cons, hc, hd, ih]
      · simp [List.filter_cons, hc, hd, ih]

lemma sortDesc_filter_ts (l : List Calibration) (t : Int) :
    (sortByTimestampDesc l).filter (fun x => x.timestamp == t) =
      l.filter (fun x => x.timestamp == t) := by
  induction l with
  | nil => rfl
  | cons c rest ih =>
    have h1 : sortByTimestampDesc (c :: rest) =
        List.orderedInsert calDesc c (sortByTimestampDesc rest) := rfl
    rw [h1, orderedInsert_filter_ts, List.filter_cons, List.filter_cons, ih]

/-! ### Generic list lemmas -/

lemma getLast?_cons_of_ne_nil {α : Type} {M : List α} (a : α) (h : M ≠ []) :
    (a :: M).getLast? = M.getLast? := by
  cases M with
  | nil => exact absurd rfl h
  | cons b l => exact List.getLast?_cons_cons

lemma find?_eq_head?_filter {α : Type} (p : α → Bool) (l : List α) :
    l.find? p = (l.filter p).head? := by
  induction l with
  | nil => rfl
  | cons a rest ih =>
    by_cases h : p a
    · rw [List.find?_cons_of_pos _ h, List.filter_cons, if_pos h]
      rfl
    · rw [List.find?_cons_of_neg _ h, List.filter_cons, if_neg h, ih]

lemma find?_congr_first {α : Type} {p q : α → Bool} {l : List α} {r : α}
    (hfind : l.find? p = some r) (hq : q r = true)
    (himp : ∀ x, q x = true → p x = true) : l.find? q = some r := by
  induction l with
  | nil => simp at hfind
  | cons a rest ih =>
    by_cases hpa : p a
    · rw [List.find?_cons_of_pos _ hpa] at hfind
      cases hfind
      rw [List.find?_cons_of_pos _ hq]
    · have hqa : ¬ q a = true := fun hqa => hpa (himp a hqa)
      rw [List.find?_cons_of_neg _ hpa] at hfind
      rw [List.find?_cons_of_neg _ hqa]
      exact ih hfind

lemma getLast?_filter_of_getLast? {α : Type} {q : α → Bool} {l : List α} {r : α}
    (h : l.getLast? = some r) (hq : q r = true) :
    (l.filter q).getLast? = some r := by
  induction l with
  | nil => simp at h
  | cons a rest ih =>
    cases rest with
    | nil =>
      simp only [List.getLast?_singleton, Option.some.injEq] at h
      subst h
      simp [List.filter_cons, hq]
    | cons b rest' =>
      rw [List.getLast?_cons_cons] at h
      have htail := ih h
      have hne : (b :: rest').filter q ≠ [] := by
        intro hnil
        rw [hnil] at htail
        simp at htail
      rw [List.filter_cons]
      by_cases ha : q a
      · rw [if_pos ha, getLast?_cons_of_ne_nil a hne, htail]
      · rw [if_neg ha]
        exact htail

/-! ### The first hit in a descending-sorted list is the maximum candidate,
and the last element is the minimum. -/

lemma sorted_find?_max {L : List Calibration} {s : Int} {r : Calibration}
    (hs : List.Sorted calDesc L)
    (h : L.find? (fun c => c.timestamp ≤ s) = some r) :
    r.timestamp ≤ s ∧ ∀ c ∈ L, c.timestamp ≤ s → c.timestamp ≤ r.timestamp := by
  induction L with
  | nil => simp at h
  | cons a rest ih =>
    rcases List.sorted_cons.mp hs with ⟨ha, hrest⟩
    by_cases hpa : a.timestamp ≤ s
    · rw [List.find?_cons_of_pos _ (by simpa using hpa)] at h
      cases h
      refine ⟨hpa, ?_⟩
      intro c hc
      rcases List.mem_cons.mp hc with hc | hc
      · intro _; exact hc ▸ le_refl _
      · intro _; exact ha c hc
    · rw [List.find?_cons_of_neg _ (by simpa using hpa)] at h
      rcases ih hrest h with ⟨h1, h2⟩
      refine ⟨h1, ?_⟩
      intro c hc
      rcases List.mem_cons.mp hc with hc | hc
      · intro hcs; exact absurd (hc ▸ hcs) hpa
      · exact h2 c hc

lemma sorted_getLast?_min {L : List Calibration} {r : Calibration}
    (hs : List.Sorted calDesc L) (h : L.getLast? = some r) :
    ∀ c ∈ L, r.timestamp ≤ c.timestamp := by
  induction L with
  | nil => simp at h
  | cons a rest ih =>
    rcases List.sorted_cons.mp hs with ⟨ha, hrest⟩
    cases rest with
    | nil =>
      simp only [List.getLast?_singleton, Option.some.injEq] at h
      subst h
      intro c hc
      rcases List.mem_cons.mp hc with hc | hc
      · exact hc ▸ le_refl _
      · simp at hc
    | cons b rest' =>
      rw [List.getLast?_cons_cons] at h
      have hmem : r ∈ b :: rest' := List.mem_of_getLast?_eq_some h
      intro c hc
      rcases List.mem_cons.mp hc with hc | hc
      · exact hc ▸ ha r hmem
      · exact ih hrest h c hc

/-! ### Properties of the per-device selection -/

lemma select_best_eq_some_of_ne_nil {g : List Calibration} (s : Int) (h : g ≠ []) :
    ∃ r, select_best s g = some r := by
  have hsne : sortByTimestampDesc g ≠ [] := by
    intro hnil
    exact h (List.Perm.eq_nil ((sortDesc_perm g).symm.trans (hnil ▸ List.Perm.refl _)))
  unfold select_best
  cases hf : (sortByTimestampDesc g).find? (fun c => c.timestamp ≤ s) with
  | some c => exact ⟨c, rfl⟩
  | none =>
    cases hl : (sortByTimestampDesc g).getLast? with
    | some c => exact ⟨c, rfl⟩
    | none =>
      exact absurd (List.getLast?_eq_none_iff.mp hl) hsne

lemma select_best_mem {g : List Calibration} {s : Int} {r : Calibration}
    (h : select_best s g = some r) : r ∈ g := by
  have hperm := sortDesc_perm g
  unfold select_best at h
  cases hf : (sortByTimestampDesc g).find? (fun c => c.timestamp ≤ s) with
  | some c =>
    rw [hf] at h
    cases h
    exact hperm.mem_iff.mp (List.mem_of_find?_eq_some hf)
  | none =>
    rw [hf] at h
    cases hl : (sortByTimestampDesc g).getLast? with
    | some c =>
      rw [hl] at h
      cases h
      exact hperm.mem_iff.mp (List.mem_of_getLast?_eq_some hl)
    | none =>
      rw [hl] at h
      exact hperm.mem_iff.mp (List.mem_of_mem_head? h)

lemma select_best_spec_le {g : List Calibration} {s : Int} {r : Calibration}
    (hex : ∃ c ∈ g, c.timestamp ≤ s) (h : select_best s g = some r) :
    r.timestamp ≤ s ∧ ∀ c ∈ g, c.timestamp ≤ s → c.timestamp ≤ r.timestamp := by
  have hperm := sortDesc_perm g
  have hfind : ∃ c, (sortByTimestampDesc g).find? (fun c => c.timestamp ≤ s) = some c := by
    obtain ⟨c, hc, hcs⟩ := hex
    have : ((sortByTimestampDesc g).find? (fun c => c.timestamp ≤ s)).isSome :=
      List.find?_isSome.mpr ⟨c, hperm.mem_iff.mpr hc, by simpa using hcs⟩
    exact Option.isSome_iff_exists.mp this
  obtain ⟨c, hf⟩ := hfind
  unfold select_best at h
  rw [hf] at h
  cases h
  rcases sorted_find?_max (sortDesc_sorted g) hf with ⟨h1, h2⟩
  exact ⟨h1, fun c hc hcs => h2 c (hperm.mem_iff.mpr hc) hcs⟩

lemma select_best_spec_gt {g : List Calibration} {s : Int} {r : Calibration}
    (hall : ∀ c ∈ g, s < c.timestamp) (h : select_best s g = some r) :
    ∀ c ∈ g, r.timestamp ≤ c.timestamp := by
  have hperm := sortDesc_perm g
  have hf : (sortByTimestampDesc g).find? (fun c => c.timestamp ≤ s) = none := by
    rw [List.find?_eq_none]
    intro x hx
    simpa using not_le.mpr (hall x (hperm.mem_iff.mp hx))
  unfold select_best at h
  rw [hf] at h
  cases hl : (sortByTimestampDesc g).getLast? with
  | some c =>
    rw [hl] at h
    cases h
    exact fun c hc =>
      sorted_getLast?_min (sortDesc_sorted g) hl c (hperm.mem_iff.mpr hc)
  | none =>
    rw [hl] at h
    have : sortByTimestampDesc g = [] := List.getLast?_eq_none_iff.mp hl
    rw [this] at h
    simp at h

/-! ### Tie-break behaviour: stability of the sort makes the find-branch pick
the earliest input occurrence of the selected timestamp, and the fallback
branch pick the latest input occurrence of the minimal timestamp. -/

lemma select_best_tie_first {g : List Calibration} {s : Int} {r : Calibration}
    (hex : ∃ c ∈ g, c.timestamp ≤ s) (h : select_best s g = some r) :
    g.find? (fun c => c.timestamp == r.timestamp) = some r := by
  have hperm := sortDesc_perm g
  have hfind : ∃ c, (sortByTimestampDesc g).find? (fun c => c.timestamp ≤ s) = some c := by
    obtain ⟨c, hc, hcs⟩ := hex
    exact Option.isSome_iff_exists.mp
      (List.find?_isSome.mpr ⟨c, hperm.mem_iff.mpr hc, by simpa using hcs⟩)
  obtain ⟨c, hf⟩ := hfind
  unfold select_best at h
  rw [hf] at h
  cases h
  have hrs : r.timestamp ≤ s := by simpa using List.find?_some hf
  have hsorted : (sortByTimestampDesc g).find? (fun c => c.timestamp == r.timestamp) =
      some r := by
    refine find?_congr_first hf ?_ ?_
    · simp
    · intro x hx
      have : x.timestamp = r.timestamp := by simpa using hx
      simpa using this ▸ hrs
  rw [find?_eq_head?_filter, sortDesc_filter_ts] at hsorted
  rw [find?_eq_head?_filter]
  exact hsorted

lemma select_best_tie_last {g : List Calibration} {s : Int} {r : Calibration}
    (hall : ∀ c ∈ g, s < c.timestamp) (h : select_best s g = some r) :
    (g.filter (fun c => c.timestamp == r.timestamp)).getLast? = some r := by
  have hperm := sortDesc_perm g
  have hf : (sortByTimestampDesc g).find? (fun c => c.timestamp ≤ s) = none := by
    rw [List.find?_eq_none]
    intro x hx
    simpa using not_le.mpr (hall x (hperm.mem_iff.mp hx))
  unfold select_best at h
  rw [hf] at h
  cases hl : (sortByTimestampDesc g).getLast? with
  | some c =>
    rw [hl] at h
    cases h
    have := getLast?_filter_of_getLast? hl
      (q := fun c => c.timestamp == r.timestamp) (by simp)
    rwa [sortDesc_filter_ts] at this
  | none =>
    rw [hl] at h
    have : sortByTimestampDesc g = [] := List.getLast?_eq_none_iff.mp hl
    rw [this] at h
    simp at h

/-! ### Output-level lemmas -/

lemma mem_output_iff {cals : List Calibration} {s : Int} {e : Option Int}
    {r : Calibration} :
    r ∈ filter_calibrations_for_run cals s e ↔
      ∃ d ∈ domKeys cals, select_best s (groupOf cals d) = some r := by
  simp [filter_calibrations_for_run, List.mem_filterMap]

lemma select_best_dom {cals : List Calibration} {d : Nat} {s : Int}
    {r : Calibration} (h : select_best s (groupOf cals d) = some r) :
    r.dom_id = d :=
  (mem_groupOf.mp (select_best_mem h)).2

lemma output_map_domId (cals : List Calibration) (s : Int) (e : Option Int) :
    (filter_calibrations_for_run cals s e).map (fun c => c.dom_id) = domKeys cals := by
  show ((domKeys cals).filterMap (fun d => select_best s (groupOf cals d))).map _ = _
  have : ∀ keys : List Nat, (∀ d ∈ keys, ∃ c ∈ cals, c.dom_id = d) →
      ((keys.filterMap (fun d => select_best s (groupOf cals d))).map
        (fun c => c.dom_id)) = keys := by
    intro keys
    induction keys with
    | nil => intro _; rfl
    | cons d rest ih =>
      intro hk
      obtain ⟨r, hr⟩ := select_best_eq_some_of_ne_nil s
        (groupOf_ne_nil (hk d (List.mem_cons_self d rest)))
      rw [List.filterMap_cons, hr, List.map_cons, select_best_dom hr,
        ih (fun x hx => hk x (List.mem_cons_of_mem d hx))]
  exact this (domKeys cals) (fun d hd => mem_domKeys.mp hd)

lemma exists_output_of_mem_domKeys {cals : List Calibration} {s : Int}
    {e : Option Int} {d : Nat} (hd : d ∈ domKeys cals) :
    ∃ r, select_best s (groupOf cals d) = some r ∧
      r ∈ filter_calibrations_for_run cals s e ∧ r.dom_id = d := by
  obtain ⟨r, hr⟩ := select_best_eq_some_of_ne_nil s (groupOf_ne_nil (mem_domKeys.mp hd))
  exact ⟨r, hr, mem_output_iff.mpr ⟨d, hd, hr⟩, select_best_dom hr⟩

/-! ### Claim theorems -/

/-- Claim C1: for every input calibration list and every window start, each
device key with at least one record timestamped at or before the window start
gets, in the output of `filter_calibrations_for_run`, a record of that device
whose timestamp is at or before the window start and is the maximum among the
device's records timestamped at or before the window start. -/
theorem C1_selects_max_at_or_before_window (cals : List Calibration)
    (s : Int) (e : Option Int) (d : Nat)
    (h : ∃ c ∈ cals, c.dom_id = d ∧ c.timestamp ≤ s) :
    ∃ r ∈ filter_calibrations_for_run cals s e,
      r ∈ cals ∧ r.dom_id = d ∧ r.timestamp ≤ s ∧
        ∀ c ∈ cals, c.dom_id = d → c.timestamp ≤ s → c.timestamp ≤ r.timestamp := by
  obtain ⟨c0, hc0, hd0, hs0⟩ := h
  have hdk : d ∈ domKeys cals := mem_domKeys.mpr ⟨c0, hc0, hd0⟩
  obtain ⟨r, hsel, hout, hdom⟩ :=
    exists_output_of_mem_domKeys (s := s) (e := e) hdk
  have hex : ∃ c ∈ groupOf cals d, c.timestamp ≤ s :=
    ⟨c0, mem_groupOf.mpr ⟨hc0, hd0⟩, hs0⟩
  rcases select_best_spec_le hex hsel with ⟨h1, h2⟩
  refine ⟨r, hout, (mem_groupOf.mp (select_best_mem hsel)).1, hdom, h1, ?_⟩
  intro c hc hcd hcs
  exact h2 c (mem_groupOf.mpr ⟨hc, hcd⟩) hcs

/-- Witness for C1 on the spec's scenario: device 161 with calibrations at
100 and 200 and window start 150 resolves to a record satisfying the
maximum-at-or-before property. -/
theorem C1_selects_max_at_or_before_window_witness :
    ∃ r ∈ filter_calibrations_for_run
        [⟨161, 0, 100⟩, ⟨161, 1, 200⟩, ⟨162, 2, 300⟩] 150 none,
      r ∈ [⟨161, 0, 100⟩, ⟨161, 1, 200⟩, ⟨162, 2, 300⟩] ∧
        r.dom_id = 161 ∧ r.timestamp ≤ 150 ∧
        ∀ c ∈ [(⟨161, 0, 100⟩ : Calibration), ⟨161, 1, 200⟩, ⟨162, 2, 300⟩],
          c.dom_id = 161 → c.timestamp ≤ 150 → c.timestamp ≤ r.timestamp :=
  C1_selects_max_at_or_before_window
    [⟨161, 0, 100⟩, ⟨161, 1, 200⟩, ⟨162, 2, 300⟩] 150 none 161 (by decide)

/-- Claim C2: for every input calibration list and every window start, each
device key all of whose records postdate the window start gets, in the output
of `filter_calibrations_for_run`, that device's record with the minimum
(oldest) timestamp. -/
theorem C2_fallback_selects_oldest (cals : List Calibration)
    (s : Int) (e : Option Int) (d : Nat)
    (hsome : ∃ c ∈ cals, c.dom_id = d)
    (hall : ∀ c ∈ cals, c.dom_id = d → s < c.timestamp) :
    ∃ r ∈ filter_calibrations_for_run cals s e,
      r ∈ cals ∧ r.dom_id = d ∧
        ∀ c ∈ cals, c.dom_id = d → r.timestamp ≤ c.timestamp := by
  have hdk : d ∈ domKeys cals := mem_domKeys.mpr hsome
  obtain ⟨r, hsel, hout, hdom⟩ :=
    exists_output_of_mem_domKeys (s := s) (e := e) hdk
  have hgt : ∀ c ∈ groupOf cals d, s < c.timestamp := by
    intro c hc
    rcases mem_groupOf.mp hc with ⟨hc1, hc2⟩
    exact hall c hc1 hc2
  have hmin := select_best_spec_gt hgt hsel
  refine ⟨r, hout, (mem_groupOf.mp (select_best_mem hsel)).1, hdom, ?_⟩
  intro c hc hcd
  exact hmin c (mem_groupOf.mpr ⟨hc, hcd⟩)

/-- Witness for C2 on the spec's scenario: device 162 with a single
calibration at 300 and window start 150 resolves to its oldest record. -/
theorem C2_fallback_selects_oldest_witness :
    ∃ r ∈ filter_calibrations_for_run
        [⟨161, 0, 100⟩, ⟨161, 1, 200⟩, ⟨162, 2, 300⟩] 150 none,
      r ∈ [⟨161, 0, 100⟩, ⟨161, 1, 200⟩, ⟨162, 2, 300⟩] ∧
        r.dom_id = 162 ∧
        ∀ c ∈ [(⟨161, 0, 100⟩ : Calibration), ⟨161, 1, 200⟩, ⟨162, 2, 300⟩],
          c.dom_id = 162 → r.timestamp ≤ c.timestamp :=
  C2_fallback_selects_oldest
    [⟨161, 0, 100⟩, ⟨161, 1, 200⟩, ⟨162, 2, 300⟩] 150 none 162
    (by decide) (by decide)

/-- Claim C4: the resolved set has at most one record per device key, every
output device key occurs in the input, and every input device key occurs
exactly once among the output's device keys. -/
theorem C4_one_record_per_device (cals : List Calibration) (s : Int)
    (e : Option Int) :
    ((filter_calibrations_for_run cals s e).map (fun c => c.dom_id)).Nodup ∧
    (∀ r ∈ filter_calibrations_for_run cals s e, ∃ c ∈ cals, c.dom_id = r.dom_id) ∧
    (∀ c ∈ cals,
      ((filter_calibrations_for_run cals s e).map
        (fun x => x.dom_id)).count c.dom_id = 1) := by
  refine ⟨?_, ?_, ?_⟩
  · rw [output_map_domId]
    exact domKeys_nodup cals
  · intro r hr
    obtain ⟨d, _, hsel⟩ := mem_output_iff.mp hr
    have hmem := mem_groupOf.mp (select_best_mem hsel)
    exact ⟨r, hmem.1, rfl⟩
  · intro c hc
    rw [output_map_domId]
    exact List.count_eq_one_of_mem (domKeys_nodup cals)
      (mem_domKeys.mpr ⟨c, hc, rfl⟩)

/-- Witness for C4: on the spec's scenario the device key 161 occurs exactly
once among the output's device keys. -/
theorem C4_one_record_per_device_witness :
    ((filter_calibrations_for_run
        [⟨161, 0, 100⟩, ⟨161, 1, 200⟩, ⟨162, 2, 300⟩] 150 none).map
      (fun x => x.dom_id)).count 161 = 1 :=
  (C4_one_record_per_device
      [⟨161, 0, 100⟩, ⟨161, 1, 200⟩, ⟨162, 2, 300⟩] 150 none).2.2
    ⟨161, 0, 100⟩ (by decide)

/-- Claim C6: the optional window end has no influence on resolution:
`filter_calibrations_for_run` returns identical output for any two values of
the end argument (the source binds it as `_run_end` and never reads it). -/
theorem C6_window_end_unused (cals : List Calibration) (s : Int)
    (e₁ e₂ : Option Int) :
    filter_calibrations_for_run cals s e₁ = filter_calibrations_for_run cals s e₂ :=
  rfl

/-- Claim C8: every group produced by the partition is non-empty, so the
descending-sorted group always has a last element and the per-device
selection always produces a record — the defensive `cals[0]` fallback (the
`none` branch of `select_best`, which models the Rust panic on indexing an
empty vector) is unreachable. -/
theorem C8_defensive_branch_unreachable (cals : List Calibration) (s : Int)
    (d : Nat) (hd : d ∈ domKeys cals) :
    groupOf cals d ≠ [] ∧
    (sortByTimestampDesc (groupOf cals d)).getLast?.isSome = true ∧
    (select_best s (groupOf cals d)).isSome = true := by
  have hne : groupOf cals d ≠ [] := groupOf_ne_nil (mem_domKeys.mp hd)
  have hsne : sortByTimestampDesc (groupOf cals d) ≠ [] := by
    intro hnil
    exact hne (((sortDesc_perm (groupOf cals d)).symm.trans
      (hnil ▸ List.Perm.refl _)).eq_nil)
  refine ⟨hne, List.getLast?_isSome.mpr hsne, ?_⟩
  obtain ⟨r, hr⟩ := select_best_eq_some_of_ne_nil s hne
  rw [hr]
  rfl

/-- Witness for C8 at device 161 of the spec's scenario. -/
theorem C8_defensive_branch_unreachable_witness :
    groupOf [⟨161, 0, 100⟩, ⟨161, 1, 200⟩] 161 ≠ [] ∧
    (sortByTimestampDesc (groupOf [⟨161, 0, 100⟩, ⟨161, 1, 200⟩] 161)).getLast?.isSome
      = true ∧
    (select_best 150 (groupOf [⟨161, 0, 100⟩, ⟨161, 1, 200⟩] 161)).isSome = true :=
  C8_defensive_branch_unreachable [⟨161, 0, 100⟩, ⟨161, 1, 200⟩] 150 161 (by decide)

/-- Claim C9: retrieval of a snapshot by identifier always returns the
not-found error with the fixed message — it never returns a snapshot and
never any other error kind. -/
theorem C9_get_collection_always_not_found (collection_id : String) :
    get_gcd_collection collection_id =
      Except.error (ApiError.NotFound gcdNotFoundMsg) :=
  rfl

/-- Claim C5: resolution is order-independent across devices: two inputs
that are permutations of each other with identical per-device record lists
resolve, under the same window, to the same set of records (the outputs are
permutations of each other). -/
theorem C5_order_independent_across_devices (l₁ l₂ : List Calibration)
    (s : Int) (e : Option Int) (hperm : List.Perm l₁ l₂)
    (hdev : ∀ d, groupOf l₁ d = groupOf l₂ d) :
    List.Perm (filter_calibrations_for_run l₁ s e)
      (filter_calibrations_for_run l₂ s e) := by
  have hkeys : List.Perm (domKeys l₁) (domKeys l₂) := by
    refine (List.perm_ext_iff_of_nodup (domKeys_nodup l₁) (domKeys_nodup l₂)).mpr ?_
    intro d
    rw [mem_domKeys, mem_domKeys]
    constructor
    · rintro ⟨c, hc, hcd⟩
      exact ⟨c, hperm.mem_iff.mp hc, hcd⟩
    · rintro ⟨c, hc, hcd⟩
      exact ⟨c, hperm.mem_iff.mpr hc, hcd⟩
  have hfun : (fun d => select_best s (groupOf l₁ d)) =
      (fun d => select_best s (groupOf l₂ d)) := by
    funext d
    rw [hdev d]
  show List.Perm ((domKeys l₁).filterMap (fun d => select_best s (groupOf l₁ d)))
    ((domKeys l₂).filterMap (fun d => select_best s (groupOf l₂ d)))
  rw [hfun]
  exact hkeys.filterMap _

/-- Witness for C5: interleaving device 162's record ahead of device 161's
records yields a permutation of the original resolved set. -/
theorem C5_order_independent_across_devices_witness :
    List.Perm
      (filter_calibrations_for_run
        [⟨161, 0, 100⟩, ⟨161, 1, 200⟩, ⟨162, 2, 300⟩] 150 none)
      (filter_calibrations_for_run
        [⟨162, 2, 300⟩, ⟨161, 0, 100⟩, ⟨161, 1, 200⟩] 150 none) :=
  C5_order_independent_across_devices
    [⟨161, 0, 100⟩, ⟨161, 1, 200⟩, ⟨162, 2, 300⟩]
    [⟨162, 2, 300⟩, ⟨161, 0, 100⟩, ⟨161, 1, 200⟩] 150 none
    (by decide)
    (fun d => by
      by_cases h1 : d = 161
      · subst h1; decide
      · by_cases h2 : d = 162
        · subst h2; decide
        · have b1 : ((161 : Nat) == d) = false := by
            simp [Ne.symm h1]
          have b2 : ((162 : Nat) == d) = false := by
            simp [Ne.symm h2]
          simp [groupOf, List.filter_cons, b1, b2])

/-- Claim C7: the run-window resolution step returns the stored
`(start_time, end_time)` verbatim when a `RunMetadata` record for the run
exists, and the synthetic window `(epoch_zero, now)` when none exists; the
absent case is absorbed into the fallback (the function is total — it has no
error outcome). -/
theorem C7_resolve_window_verbatim_or_fallback (run_metadata_col : List RunMetadata)
    (run_num : Nat) (now : Int) :
    (∀ m, run_metadata_col.find? (fun x => x.run_number == run_num) = some m →
      resolve_window run_metadata_col run_num now = (m.start_time, m.end_time)) ∧
    (run_metadata_col.find? (fun x => x.run_number == run_num) = none →
      resolve_window run_metadata_col run_num now = (epoch_zero, some now)) := by
  constructor
  · intro m hm
    unfold resolve_window
    rw [hm]
  · intro hnone
    unfold resolve_window
    rw [hnone]

/-- Witness for C7: both branches at concrete inputs — a stored window for
run 42 is returned verbatim, and run 999 with no metadata gets the synthetic
window. -/
theorem C7_resolve_window_verbatim_or_fallback_witness :
    resolve_window [⟨42, 10, some 20⟩] 42 1000 = (10, some 20) ∧
    resolve_window [⟨42, 10, some 20⟩] 999 1000 = (epoch_zero, some 1000) :=
  ⟨(C7_resolve_window_verbatim_or_fallback [⟨42, 10, some 20⟩] 42 1000).1
      ⟨42, 10, some 20⟩ (by decide),
    (C7_resolve_window_verbatim_or_fallback [⟨42, 10, some 20⟩] 999 1000).2
      (by decide)⟩

/-- Device 161, payload 0, timestamp 100 — used in the C3 scenario. -/
def calA : Calibration := ⟨161, 0, 100⟩

/-- Device 161, payload 1, timestamp 200 — used in the C3 scenario. -/
def calB : Calibration := ⟨161, 1, 200⟩

/-- A database with two calibrations for device 161 and no run metadata. -/
def dbNoWindow : DbState := ⟨[calA, calB], [], [], []⟩

/-- Counterexample to claim C3: with no `RunMetadata` for run 999 the
synthetic window start is `epoch_zero`, and since both of device 161's
records postdate the epoch the fallback selects the OLDEST record
(timestamp 100), not the one with the maximum timestamp (200).  The final
conjunct is the negation of the claim's per-device maximality property at
this input. -/
theorem C3_latest_per_device_counterexample :
    (generate_gcd_collection dbNoWindow 999 1000 "id-1" "u@example.com").calibrations
        = [calA] ∧
    calA.timestamp = 100 ∧ calB ∈ dbNoWindow.calibration ∧
    calB.dom_id = 161 ∧ calB.timestamp = 200 ∧
    ¬ ∃ r ∈ (generate_gcd_collection dbNoWindow 999 1000 "id-1" "u@example.com").calibrations,
        r.dom_id = 161 ∧
          ∀ c ∈ dbNoWindow.calibration, c.dom_id = 161 →
            c.timestamp ≤ r.timestamp := by
  decide

/-- Claim C3 as amended: when no `RunWindow` exists for the requested run,
snapshot generation resolves calibrations against the synthetic window
`(epoch_zero, now)`; under window start `epoch_zero` the resolution selects,
per device, the maximum-timestamp record among those timestamped at or
before the epoch when one exists, and otherwise (in particular whenever all
of the device's records postdate the epoch) the device's oldest
(minimum-timestamp) record — not the latest. -/
theorem C3_epoch_window_resolution (db : DbState) (run_num : Nat) (now : Int)
    (uuid email : String)
    (hmeta : db.run_metadata.find? (fun m => m.run_number == run_num) = none) :
    (generate_gcd_collection db run_num now uuid email).calibrations =
      filter_calibrations_for_run db.calibration epoch_zero (some now) ∧
    ∀ d ∈ domKeys db.calibration,
      ∃ r ∈ (generate_gcd_collection db run_num now uuid email).calibrations,
        r.dom_id = d ∧
        ((∃ c ∈ groupOf db.calibration d, c.timestamp ≤ epoch_zero) →
          r.timestamp ≤ epoch_zero ∧
            ∀ c ∈ groupOf db.calibration d, c.timestamp ≤ epoch_zero →
              c.timestamp ≤ r.timestamp) ∧
        ((∀ c ∈ groupOf db.calibration d, epoch_zero < c.timestamp) →
          ∀ c ∈ groupOf db.calibration d, r.timestamp ≤ c.timestamp) := by
  have heq : (generate_gcd_collection db run_num now uuid email).calibrations =
      filter_calibrations_for_run db.calibration epoch_zero (some now) := by
    unfold generate_gcd_collection resolve_window
    rw [hmeta]
  refine ⟨heq, ?_⟩
  intro d hd
  obtain ⟨r, hsel, hout, hdom⟩ :=
    exists_output_of_mem_domKeys (s := epoch_zero) (e := some now) hd
  rw [heq]
  refine ⟨r, hout, hdom, ?_, ?_⟩
  · intro hex
    exact select_best_spec_le hex hsel
  · intro hall
    exact select_best_spec_gt hall hsel

/-- Witness for the amended C3 at the concrete no-metadata database. -/
theorem C3_epoch_window_resolution_witness :
    (generate_gcd_collection dbNoWindow 999 1000 "id-1" "u@example.com").calibrations =
      filter_calibrations_for_run dbNoWindow.calibration epoch_zero (some 1000) :=
  (C3_epoch_window_resolution dbNoWindow 999 1000 "id-1" "u@example.com" rfl).1

/-- Device 7, payload 0, timestamp 100 — first of two equal-timestamp
records in the C10 scenario. -/
def calT1 : Calibration := ⟨7, 0, 100⟩

/-- Device 7, payload 1, timestamp 100 — second of two equal-timestamp
records in the C10 scenario. -/
def calT2 : Calibration := ⟨7, 1, 100⟩

/-- Counterexample to claim C10: device 7 has two records with the equal
timestamp 100, both after the window start 50, so the oldest-record fallback
applies; the stable descending sort keeps them in input order and `last()`
takes the SECOND input occurrence, not the earliest. -/
theorem C10_earliest_tie_break_counterexample :
    filter_calibrations_for_run [calT1, calT2] 50 none = [calT2] ∧
    filter_calibrations_for_run [calT1, calT2] 50 none ≠ [calT1] ∧
    calT1 ≠ calT2 ∧ calT1.dom_id = calT2.dom_id ∧
    calT1.timestamp = calT2.timestamp := by
  decide

/-- Claim C10 as amended: the descending sort by timestamp is stable, and
the tie-break among records sharing the selected timestamp depends on the
branch taken: when some record of the device is timestamped at or before the
window start, the selected record is the EARLIEST input occurrence of the
selected timestamp (it is what `find?` over the input yields for that
timestamp); when every record postdates the window start, the fallback
selects the LAST input occurrence of the minimal timestamp (the last element
of the input filtered to that timestamp). -/
theorem C10_stable_tie_break (cals : List Calibration) (s : Int)
    (e : Option Int) (d : Nat) (hd : d ∈ domKeys cals) :
    ∃ r, select_best s (groupOf cals d) = some r ∧
      r ∈ filter_calibrations_for_run cals s e ∧ r.dom_id = d ∧
      ((∃ c ∈ groupOf cals d, c.timestamp ≤ s) →
        (groupOf cals d).find? (fun c => c.timestamp == r.timestamp) = some r) ∧
      ((∀ c ∈ groupOf cals d, s < c.timestamp) →
        ((groupOf cals d).filter
          (fun c => c.timestamp == r.timestamp)).getLast? = some r) := by
  obtain ⟨r, hsel, hout, hdom⟩ := exists_output_of_mem_domKeys (s := s) (e := e) hd
  refine ⟨r, hsel, hout, hdom, ?_, ?_⟩
  · intro hex
    exact select_best_tie_first hex hsel
  · intro hall
    exact select_best_tie_last hall hsel

/-- Witness for the amended C10 at the concrete equal-timestamp input. -/
theorem C10_stable_tie_break_witness :
    ∃ r, select_best 50 (groupOf [calT1, calT2] 7) = some r ∧
      r ∈ filter_calibrations_for_run [calT1, calT2] 50 none ∧ r.dom_id = 7 ∧
      ((∃ c ∈ groupOf [calT1, calT2] 7, c.timestamp ≤ 50) →
        (groupOf [calT1, calT2] 7).find?
          (fun c => c.timestamp == r.timestamp) = some r) ∧
      ((∀ c ∈ groupOf [calT1, calT2] 7, 50 < c.timestamp) →
        ((groupOf [calT1, calT2] 7).filter
          (fun c => c.timestamp == r.timestamp)).getLast? = some r) :=
  C10_stable_tie_break [calT1, calT2] 50 none 7 (by decide)

end GcdServer
